import Mathlib

/-
Verification of the MonoAI repository against its natural-language
specification.  Each Python function named by a claim is shallowly embedded
as an executable Lean definition; machine floats are modelled by exact
rationals, Python dictionaries by association lists, Python exceptions by
`Except`, and external oracles (the LLM provider, `json.loads`/`json.dumps`,
the file system, `str.format`) by function parameters.
-/

namespace MonoAI

/-! ## Generic association-list helpers (Python `dict` access) -/

/-- Lookup in an association list: models `d.get(key)` / `key in d` on a
Python dict (first binding wins; parsed dicts carry unique keys). -/
def lookupStr {α : Type} : List (String × α) → String → Option α
  | [], _ => none
  | (k, v) :: rest, key => if k = key then some v else lookupStr rest key

/-- Assignment `d[key] = value` on a Python dict rendered as an association
list: replaces an existing binding in place, otherwise appends. -/
def setAssoc {α : Type} : List (String × α) → String → α → List (String × α)
  | [], k, v => [(k, v)]
  | (k', v') :: rest, k, v =>
      if k' = k then (k, v) :: rest else (k', v') :: setAssoc rest k v

/-! ## A minimal JSON value type (results of `json.loads`) -/

/-- JSON values, as produced by `json.loads`. -/
inductive Json where
  | null
  | bool (b : Bool)
  | num (n : Int)
  | str (s : String)
  | arr (elems : List Json)
  | obj (fields : List (String × Json))

/-- `j[key]` / `key in j` for an object; `none` on non-objects (the agentic
loops only reach this on parsed step objects, see the step hypotheses). -/
def Json.getKey : Json → String → Option Json
  | .obj fields, k => lookupStr fields k
  | _, _ => none

/-- `j[key] = v` on an object; identity on non-objects (only ever applied to
step objects in the embedded loops). -/
def Json.setKey : Json → String → Json → Json
  | .obj fields, k, v => .obj (setAssoc fields k v)
  | j, _, _ => j

/-- Whether a JSON value is an object (a Python dict). -/
def Json.isObj : Json → Bool
  | .obj _ => true
  | _ => false

/-- Python truthiness of a JSON value (`if not prompt: ...`). -/
def pyTruthy : Json → Bool
  | .null => false
  | .bool b => b
  | .num n => !(n == 0)
  | .str s => !(s == "")
  | .arr l => !l.isEmpty
  | .obj l => !l.isEmpty

/-! ## Token cost (src/token_cost.py, `TokenCost.compute`) -/

/-- The floor of a rational, computed on its normalized fraction. -/
def ratFloor (q : ℚ) : ℤ :=
  Int.fdiv q.num (q.den : ℤ)

/-- Round-half-to-even on an exact rational, the tie-breaking rule of
Python's `round`. -/
def roundHalfEven (q : ℚ) : ℤ :=
  let f := ratFloor q
  let r := q - (f : ℚ)
  if r < 1/2 then f
  else if 1/2 < r then f + 1
  else if f % 2 = 0 then f else f + 1

/-- `round(q, ndigits)` in exact rational arithmetic. -/
def pyRound (q : ℚ) (ndigits : ℕ) : ℚ :=
  (roundHalfEven (q * ((10 ^ ndigits : ℕ) : ℚ)) : ℚ) / ((10 ^ ndigits : ℕ) : ℚ)

/-- The parsed `token_pricing.json` table:
provider ↦ model ↦ {"input"/"output" ↦ price-per-1k}. -/
abbrev PricingTable := List (String × List (String × List (String × ℚ)))

inductive CostError where
  | fileNotFound
  | providerNotFound
  | modelNotFound
  | missingPricing
  | invalidTokens
deriving DecidableEq

structure TokenCosts where
  inputCost : ℚ
  outputCost : ℚ
  totalCost : ℚ
deriving DecidableEq

/-- Embeds `TokenCost.compute` (src/token_cost.py lines 10-66).  The pricing
file is passed as `none` (missing) or its parsed content; float arithmetic
is modelled exactly on ℚ. -/
def tokenCostCompute (pricingFile : Option PricingTable) (provider model : String)
    (inputTokens outputTokens : ℤ) : Except CostError TokenCosts :=
  if inputTokens < 0 ∨ outputTokens < 0 then .error .invalidTokens
  else
    match pricingFile with
    | none => .error .fileNotFound
    | some table =>
      match lookupStr table provider with
      | none => .error .providerNotFound
      | some models =>
        match lookupStr models model with
        | none => .error .modelNotFound
        | some entry =>
          match lookupStr entry "input", lookupStr entry "output" with
          | some pin, some pout =>
            let inputCost := pyRound ((inputTokens : ℚ) * pin / 1000) 8
            let outputCost := pyRound ((outputTokens : ℚ) * pout / 1000) 8
            .ok ⟨inputCost, outputCost, pyRound (inputCost + outputCost) 8⟩
          | _, _ => .error .missingPricing

/-- The pricing table of the specification's worked example. -/
def examplePricing : PricingTable :=
  [("openai", [("gpt-4o-mini", [("input", 15/100), ("output", 6/10)])])]

/-! ## Prompt construction (src/coicoi/prompts/prompt.py, `Prompt.__init__`) -/

inductive PromptInitError where
  | missingPromptSource
deriving DecidableEq

/-- The state a constructed Prompt carries: its final text and its response
type (`τ` abstracts Python `type` values). -/
structure PromptObj (τ : Type) where
  text : String
  responseType : Option τ
deriving DecidableEq

/-- Decidability-free `Except.isOk`. -/
def isOkE {ε α : Type} : Except ε α → Bool
  | .ok _ => true
  | .error _ => false

/-- Embeds `Prompt.__init__` (src/coicoi/prompts/prompt.py lines 64-102).
`parse` abstracts `PromptParser().parse` (file text plus optional declared
response type), `fmt` abstracts `str.format(**prompt_data)`. -/
def promptInit {τ δ : Type} (parse : String → String × Option τ) (fmt : String → δ → String)
    (prompt_id : Option String) (prompt_data : Option δ) (prompt : Option String)
    (response_type : Option τ) : Except PromptInitError (PromptObj τ) :=
  match prompt_id with
  | some pid =>
    let pr := parse pid
    let t := match prompt_data with | some d => fmt pr.1 d | none => pr.1
    .ok ⟨t, match pr.2 with | some x => some x | none => response_type⟩
  | none =>
    match prompt with
    | some p =>
      let t := match prompt_data with | some d => fmt p d | none => p
      .ok ⟨t, response_type⟩
    | none => .error .missingPromptSource

/-! ## Prompt file path resolution (src/coicoi/prompts/_prompt_parser.py) -/

/-- `s.startswith(p)` (on the character lists, which the kernel can
evaluate). -/
def strStarts (s p : String) : Bool :=
  p.data.isPrefixOf s.data

/-- `s.endswith(p)`. -/
def strEnds (s p : String) : Bool :=
  p.data.reverse.isPrefixOf s.data.reverse

/-- `str.upper()` for ASCII letters. -/
def chUpper (c : Char) : Char :=
  if 'a' ≤ c ∧ c ≤ 'z' then Char.ofNat (c.toNat - 32) else c

/-- `s.upper()`. -/
def strToUpper (s : String) : String :=
  ⟨s.data.map chUpper⟩

/-- `os.path.join(a, b)` for POSIX paths (the only cases the parser uses:
`b` relative unless explicitly absolute). -/
def pathJoin (a b : String) : String :=
  if strStarts b "/" then b
  else if a = "" then b
  else if strEnds a "/" then a ++ b
  else a ++ "/" ++ b

/-- Embeds the path computation of `PromptParser.parse`
(src/coicoi/prompts/_prompt_parser.py lines 7-10): join, unconditionally
append ".prompt", then the (dead) `endswith` guard. -/
def promptFilePath (promptsPath promptId : String) : String :=
  let p := pathJoin promptsPath (promptId ++ ".prompt")
  if !(strEnds p ".prompt") then p ++ ".prompt" else p

/-! ## Chat construction (src/coicoi/chat/chat.py, `Chat.__init__`) -/

/-- Errors `Chat.__init__` can raise;`κ` abstracts the key-loading failures
of `load_key`. -/
inductive ChatError (κ : Type) where
  | conflictingArguments
  | keyLoad (e : κ)

/-- Embeds `Chat.__init__` (src/coicoi/chat/chat.py lines 45-77) restricted
to its observable effects: the conflict check comes first, then
`load_key(provider)` (its outcome abstracted as `lk`, `some e` meaning it
raised `e`), then the history backend (abstracted by its `new` operation on
a backend state `HS`).  Returns the chat id and the backend state. -/
def chatInit {HS κ : Type} (histNew : Option String → HS → String × HS)
    (lk : Option κ) (system_prompt chat_id : Option String) (hs : HS) :
    Except (ChatError κ) (String × HS) :=
  match chat_id, system_prompt with
  | some _, some _ => .error .conflictingArguments
  | _, _ =>
    match lk with
    | some e => .error (.keyLoad e)
    | none =>
      match chat_id with
      | none => .ok (histNew system_prompt hs)
      | some cid => .ok (cid, hs)

/-! ## Application routes (src/monoai/application/application.py) -/

inductive HttpError where
  | badRequest
  | notFoundAgent
  | rateLimited
deriving DecidableEq

/-- The two rate-limiter operations the routes invoke.  The `RateLimiter`
class itself is imported from `monoai/application/rate_limiter.py`, which is
not under src/; per the spec (§4.24) `check_with_response` evaluates the
response's consumption against the quotas and `update_with_response` commits
it, so they are modelled as an abstract predicate and an abstract transformer
on a limiter state `σ`. -/
structure RateLimiterOps (σ ρ : Type) where
  checkWithResponse : String → ρ → σ → Bool
  updateWithResponse : String → ρ → σ → σ

/-- Embeds the `/model` route handler (src/monoai/application/application.py
lines 246-274).  `data` is `none` when the body is not valid JSON; `userOf`
abstracts `_get_user_identifier`; `ask` abstracts `self._model.ask`.
Returns the HTTP outcome together with the rate-limiter state. -/
def modelRoute {σ ρ : Type} (rl : Option (RateLimiterOps σ ρ)) (ask : Json → ρ)
    (userOf : Option Json → String) (data : Option Json) (st : σ) :
    Except HttpError ρ × σ :=
  match data with
  | none => (.error .badRequest, st)
  | some d =>
    match d.getKey "prompt" with
    | none => (.error .badRequest, st)
    | some p =>
      if pyTruthy p = false then (.error .badRequest, st)
      else
        let user := userOf (some d)
        let result := ask p
        match rl with
        | none => (.ok result, st)
        | some ops =>
          if ops.checkWithResponse user result st then
            (.ok result, ops.updateWithResponse user result st)
          else (.error .rateLimited, st)

/-- Embeds the `/agent/{agent_name}` route handler
(src/monoai/application/application.py lines 283-315): the agent-name lookup
comes first, then the same body/prompt/rate-limit sequence as `/model` with
`agent.run` in place of `model.ask`. -/
def agentRoute {σ ρ : Type} (rl : Option (RateLimiterOps σ ρ))
    (agents : List (String × (Json → ρ))) (userOf : Option Json → String)
    (agentName : String) (data : Option Json) (st : σ) :
    Except HttpError ρ × σ :=
  match lookupStr agents agentName with
  | none => (.error .notFoundAgent, st)
  | some run =>
    match data with
    | none => (.error .badRequest, st)
    | some d =>
      match d.getKey "prompt" with
      | none => (.error .badRequest, st)
      | some p =>
        if pyTruthy p = false then (.error .badRequest, st)
        else
          let user := userOf (some d)
          let result := run p
          match rl with
          | none => (.ok result, st)
          | some ops =>
            if ops.checkWithResponse user result st then
              (.ok result, ops.updateWithResponse user result st)
            else (.error .rateLimited, st)

/-! ## Python string helpers (for src/keys_manager.py and the chunker) -/

/-- The whitespace characters stripped by Python's default `str.strip()`
(ASCII portion, which covers the repository's inputs). -/
def pyIsSpace (c : Char) : Bool :=
  c == ' ' || c == '\t' || c == '\n' || c == '\r' || c == '\x0b' || c == '\x0c'

/-- `str.strip()` on a list of characters. -/
def pyStrip (t : List Char) : List Char :=
  ((t.dropWhile pyIsSpace).reverse.dropWhile pyIsSpace).reverse

/-- `str.strip()` on a `String`. -/
def pyStripStr (s : String) : String :=
  ⟨pyStrip s.data⟩

/-- `str.strip(c)` for a single character `c` (used for `strip('"')`). -/
def pyStripChar (c : Char) (t : List Char) : List Char :=
  ((t.dropWhile (fun x => x == c)).reverse.dropWhile (fun x => x == c)).reverse

/-- `s.split(sep, 1)` on a single-character separator: the text before the
first occurrence and the text after it, or `none` when absent. -/
def splitOnceChar (c : Char) : List Char → Option (List Char × List Char)
  | [] => none
  | x :: xs =>
    if x == c then some ([], xs)
    else
      match splitOnceChar c xs with
      | some (a, b) => some (x :: a, b)
      | none => none

/-! ## Keys manager (src/keys_manager.py) -/

inductive KeyError where
  | fileNotFound
  | keyNotFound
deriving DecidableEq

/-- The `_KeyManager` singleton's state: its `_keys` cache (`none` until the
key file has been parsed). -/
structure KMState where
  keys : Option (List (String × String))
deriving DecidableEq

/-- Parses one line of `providers.keys`
(src/keys_manager.py, `_KeyManager._load_keys_from_file` lines 36-51):
strip, skip blank and `#` lines, split once on `=`, upper-case the provider,
append `_API_KEY` unless already suffixed, strip quotes from the value.
`none` means the line contributes no entry. -/
def parseKeyLine (line : String) : Option (String × String) :=
  let l := pyStripStr line
  if l = "" then none
  else if strStarts l "#" then none
  else
    match splitOnceChar '=' l.data with
    | some (p, k) =>
      let prov := strToUpper (pyStripStr ⟨p⟩)
      let key : String := ⟨pyStripChar '"' (pyStrip k)⟩
      let prov := if strEnds prov "_API_KEY" then prov else prov ++ "_API_KEY"
      some (prov, key)
    | none => none

/-- The `_keys` dict built by `_load_keys_from_file` from the file's lines. -/
def parseKeysFile (lines : List String) : List (String × String) :=
  lines.foldl
    (fun acc line =>
      match parseKeyLine line with
      | some (k, v) => setAssoc acc k v
      | none => acc)
    []

/-- Embeds `_KeyManager.load_key` (src/keys_manager.py lines 18-29):
upper-cases the provider, parses `providers.keys` unless cached (`file` is
the file's lines, `none` when the file does not exist), looks the key up and
writes it into the environment. -/
def kmLoadKey (file : Option (List String)) (provider : String) (st : KMState)
    (env : List (String × String)) :
    Except KeyError (KMState × List (String × String)) :=
  let keyName := strToUpper provider ++ "_API_KEY"
  let keysE : Except KeyError (List (String × String)) :=
    match st.keys with
    | some ks => .ok ks
    | none =>
      match file with
      | some lines => .ok (parseKeysFile lines)
      | none => .error .fileNotFound
  match keysE with
  | .error e => .error e
  | .ok ks =>
    match lookupStr ks keyName with
    | none => .error .keyNotFound
    | some k => .ok (⟨some ks⟩, setAssoc env keyName k)

/-- Embeds the module-level `load_key` (src/keys_manager.py lines 57-67).
Note the guard uses `provider + "_API_KEY"` verbatim, without `upper()`.
`inColab` models `'google.colab' in sys.modules` and `colabSecrets` the
notebook secret store (`none` meaning the secret is absent and the lookup
raises). -/
def load_key (file : Option (List String)) (inColab : Bool)
    (colabSecrets : String → Option String) (provider : String) (st : KMState)
    (env : List (String × String)) :
    Except KeyError (KMState × List (String × String)) :=
  let keyName := provider ++ "_API_KEY"
  match lookupStr env keyName with
  | some _ => .ok (st, env)
  | none =>
    if inColab then
      match colabSecrets keyName with
      | some v => .ok (st, setAssoc env keyName v)
      | none => .error .keyNotFound
    else kmLoadKey file provider st env

/-! ## Text chunking (src/coicoi/rag/documents_builder.py, `_split_text`)

Python string indices may be negative (the `start = end - chunk_overlap`
step can go below zero), so positions are carried as integers and adjusted
exactly as Python slicing and `str.rfind` adjust them. -/

/-- Python's index adjustment for `s[a:b]` and `s.rfind(c, a, b)`: a
negative index counts from the end, then the result is clamped to
`[0, n]`. -/
def pyAdjIndex (n : ℕ) (i : ℤ) : ℕ :=
  (min (max (if i < 0 then (n : ℤ) + i else i) 0) (n : ℤ)).toNat

/-- `s[a:b]` with Python index semantics. -/
def pySlice (t : List Char) (a b : ℤ) : List Char :=
  (t.take (pyAdjIndex t.length b)).drop (pyAdjIndex t.length a)

/-- Scan for the greatest position `p` with `lo ≤ p < hi` holding character
`c`; `-1` when there is none (the recursion argument is `hi`). -/
def rfindAux (t : List Char) (c : Char) (lo : ℕ) : ℕ → ℤ
  | 0 => -1
  | h + 1 =>
    if h < lo then -1
    else if t.get? h = some c then (h : ℤ)
    else rfindAux t c lo h

/-- `s.rfind(c, a, b)` for a single-character needle, with Python index
adjustment; returns `-1` when absent. -/
def pyRfindChar (t : List Char) (c : Char) (a b : ℤ) : ℤ :=
  rfindAux t c (pyAdjIndex t.length a) (pyAdjIndex t.length b)

/-- The end position of the chunk starting at `start`
(documents_builder.py lines 809-821): candidate `start + chunk_size`,
moved back to just after the last space or newline in the window when the
candidate falls strictly inside the text and such a boundary exists after
`start`. -/
def splitEnd (t : List Char) (chunkSize : ℕ) (start : ℤ) : ℤ :=
  let end0 : ℤ := start + chunkSize
  if end0 < (t.length : ℤ) then
    let lastSpace := pyRfindChar t ' ' start end0
    let lastNewline := pyRfindChar t '\n' start end0
    let breakPoint := max lastSpace lastNewline
    if start < breakPoint then breakPoint + 1 else end0
  else end0

/-- The `while start < len(text)` loop of `_split_text`
(documents_builder.py lines 808-831).  `fuel` bounds the number of
iterations: the Python loop has no such bound (and for some
size/overlap/text combinations never terminates), and every finite prefix
of its run is reproduced by a large enough `fuel`; all membership theorems
below hold for every `fuel`. -/
def splitTextLoop (t : List Char) (chunkSize chunkOverlap : ℕ) :
    ℕ → ℤ → List (List Char)
  | 0, _ => []
  | fuel + 1, start =>
    if start < (t.length : ℤ) then
      let e := splitEnd t chunkSize start
      let chunk := pyStrip (pySlice t start e)
      let start2 := e - chunkOverlap
      let rest :=
        if (t.length : ℤ) ≤ start2 then []
        else splitTextLoop t chunkSize chunkOverlap fuel start2
      if chunk.isEmpty then rest else chunk :: rest
    else []

/-- Embeds `DocumentsBuilder._split_text` (documents_builder.py lines
766-833): a text no longer than the chunk size is returned verbatim as a
single chunk, otherwise the windowed loop runs. -/
def splitText (chunkSize chunkOverlap fuel : ℕ) (text : List Char) :
    List (List Char) :=
  if text.length ≤ chunkSize then [text]
  else splitTextLoop text chunkSize chunkOverlap fuel 0

/-! ## The legacy ReAct loop (src/monoai/agents/agentic_loop.py) -/

/-- Exceptions the legacy loop can raise: `json.JSONDecodeError` from
`json.loads(content)`, `KeyError` from dict/tool lookups in `_call_tool`,
`TypeError`/`AttributeError` from `tool_call["arguments"].values()` on a
non-dict. -/
inductive LoopErr where
  | jsonDecode (raw : String)
  | keyError
  | typeError
deriving DecidableEq

/-- A conversation message (only its role and `content` matter to the
loops; the provider's own reply dict is appended with role assistant). -/
structure Msg where
  role : String
  content : Option String
deriving DecidableEq

/-- The `response` dict built by `ReactAgenticLoop.start`: original prompt,
iteration log, and the final answer under `"response"` when one was
produced. -/
structure ReactResult where
  prompt : String
  iterations : List Json
  response : Option Json

/-- Embeds `_ReactMixin._call_tool` (agentic_loop.py lines 29-32): look up
`tool_call["name"]` among the available tools, take
`tool_call["arguments"].values()` positionally, call the tool.  A tool is
an abstract function from its positional arguments to a JSON-encodable
result. -/
def callToolR (tools : List (String × (List Json → Json))) (tc : Json) :
    Except LoopErr Json :=
  match tc.getKey "name" with
  | some (.str nm) =>
    match lookupStr tools nm with
    | some f =>
      match tc.getKey "arguments" with
      | some (.obj kvs) => .ok (f (kvs.map (fun kv => kv.2)))
      | some _ => .error .typeError
      | none => .error .keyError
    | none => .error .keyError
  | some _ => .error .keyError
  | none => .error .keyError

/-- Embeds the `while True` body of `ReactAgenticLoop.start`
(agentic_loop.py lines 116-147).  The provider is an oracle `content`
indexed by the call number (the loop makes exactly one `_execute` call per
iteration); `parse` abstracts `json.loads` (`none` = raise
`JSONDecodeError`); `dumps` abstracts `json.dumps`.  The first argument
counts the remaining iterations (`max_iter - current_iter`). -/
def reactLoopAux (content : ℕ → Option String) (parse : String → Option Json)
    (dumps : Json → String) (tools : List (String × (List Json → Json))) :
    ℕ → ℕ → List Msg → ReactResult → Except LoopErr (ReactResult × List Msg)
  | 0, _, msgs, res => .ok (res, msgs)
  | fuel + 1, k, msgs, res =>
    let c := content k
    let msgs1 := msgs ++ [⟨"assistant", c⟩]
    match c with
    | none => reactLoopAux content parse dumps tools fuel (k + 1) msgs1 res
    | some s =>
      match parse s with
      | none => .error (.jsonDecode s)
      | some it =>
        match it.getKey "final_answer" with
        | some v =>
          .ok (⟨res.prompt, res.iterations ++ [it], some v⟩, msgs1)
        | none =>
          match it.getKey "action" with
          | some tc =>
            match callToolR tools tc with
            | .error e => .error e
            | .ok tr =>
              reactLoopAux content parse dumps tools fuel (k + 1)
                (msgs1 ++ [⟨"user", some (dumps (Json.obj [("observation", tr)]))⟩])
                ⟨res.prompt, res.iterations ++ [it.setKey "observation" tr], res.response⟩
          | none => reactLoopAux content parse dumps tools fuel (k + 1) msgs1 res

/-- Embeds `ReactAgenticLoop.start` (agentic_loop.py lines 109-147) run with
a finite `max_iter` (the source also admits `max_iter = None`, in which case
the Python loop is unbounded).  `msgs0` is the message list built by
`_get_base_messages`. -/
def reactStart (content : ℕ → Option String) (parse : String → Option Json)
    (dumps : Json → String) (tools : List (String × (List Json → Json)))
    (msgs0 : List Msg) (query : String) (maxIter : ℕ) :
    Except LoopErr (ReactResult × List Msg) :=
  reactLoopAux content parse dumps tools maxIter 0 msgs0 ⟨query, [], none⟩

/-- The step the provider produced at call `i`, after `json.loads`. -/
def parsedStep (content : ℕ → Option String) (parse : String → Option Json)
    (i : ℕ) : Option Json :=
  (content i).bind parse

/-- Specification-side helper: the `final_answer` value carried by step `i`,
if step `i` parses and carries one. -/
def stepFinal (content : ℕ → Option String) (parse : String → Option Json)
    (i : ℕ) : Option Json :=
  match parsedStep content parse i with
  | some j => j.getKey "final_answer"
  | none => none

/-- Specification-side helper: the `final_answer` value of the first step in
calls `k, k+1, ..., k+fuel-1` that carries one, if any. -/
def firstFinal (content : ℕ → Option String) (parse : String → Option Json) :
    ℕ → ℕ → Option Json
  | 0, _ => none
  | fuel + 1, k =>
    match stepFinal content parse k with
    | some v => some v
    | none => firstFinal content parse fuel (k + 1)

/-! ## The agentic_loops base ReAct loop
(src/monoai/agents/agentic_loops/_react_agentic_loop.py,
`_BaseReactLoop._run_react_loop`)

The base class `_AgenticLoop` this file imports
(`agentic_loops/_agentic_loop.py`) is not under src/, so the helpers it
defines are carried as abstract hook functions; the control flow below is
the visible `_run_react_loop` body (lines 70-136). -/

/-- The hooks `_run_react_loop` draws from its (missing) base class, plus
the provider oracle.  `ρ` is the mutable `response` record, `ε` the
exceptions tool handling may raise.

Modelled from the spec: `parseStep` stands for `_parse_step_format`, defined
in the missing `agentic_loops/_agentic_loop.py`; per the spec ("Agentic
loops treat a step that fails to parse as structured JSON as ordinary free
text re-injected into the conversation") it returns `none` instead of
raising when the content is not valid structured JSON.  `updateUsage`,
`attachUsage`, `handleFinal`, `handleAction`, `custom` and `handleDefault`
stand for `_update_usage`, the `iteration["usage"]` enrichment,
`_handle_final_answer`, `_handle_tool_action`, the `custom_handlers`
dispatch and `_handle_default`, all defined in the missing base class. -/
structure ReactHooks (ρ ε : Type) where
  content : ℕ → Option String
  parseStep : String → Option Json
  updateUsage : ρ → Option String → ρ
  attachUsage : ℕ → Json → Json
  feedback : Option (Json → Bool)
  handleFinal : Json → ρ → Bool × ρ
  handleAction : Json → ρ → List Msg → Except ε (ρ × List Msg)
  custom : Json → ρ → List Msg → Option (ρ × List Msg)
  handleDefault : Json → ρ → List Msg → ρ × List Msg
  maxIter : Option ℕ

/-- `self._max_iter is not None and current_iter >= self._max_iter`. -/
def capReached (maxIter : Option ℕ) (cur : ℕ) : Bool :=
  match maxIter with
  | some m => decide (m ≤ cur)
  | none => false

/-- `iteration["step_type"] == s`.  (Python raises `KeyError` when the step
lacks `step_type`; steps produced by `_parse_step_format` always carry one,
per the spec's step format `{step_type, content, action?}`.) -/
def stepTypeIs (it : Json) (s : String) : Bool :=
  match it.getKey "step_type" with
  | some (.str t) => t = s
  | _ => false

/-- The human-feedback gate: with `_human_feedback == "all"` (a `some`
oracle), a rejected step stops the run. -/
def feedbackStops (fb : Option (Json → Bool)) (it : Json) : Bool :=
  match fb with
  | some f => !f it
  | none => false

/-- Embeds the `while True` body of `_BaseReactLoop._run_react_loop`
(_react_agentic_loop.py lines 78-136).  `cur` is `current_iter`, `k` the
provider-call number (an action step `continue`s without incrementing
`current_iter`, so the two counters differ).  `fuel` bounds the embedded
recursion; `.ok none` reports fuel exhaustion (the Python loop is still
running), `.ok (some _)` a normal return. -/
def runReactLoopAux {ρ ε : Type} (H : ReactHooks ρ ε) :
    ℕ → ℕ → ℕ → List Msg → ρ → Except ε (Option (ρ × List Msg))
  | 0, _, _, _, _ => .ok none
  | fuel + 1, cur, k, msgs, res =>
    if capReached H.maxIter cur then .ok (some (res, msgs))
    else
      let c := H.content k
      let msgs1 := msgs ++ [⟨"assistant", c⟩]
      let res1 := H.updateUsage res c
      match c with
      | none => runReactLoopAux H fuel (cur + 1) (k + 1) msgs1 res1
      | some s =>
        match H.parseStep s with
        | none =>
          runReactLoopAux H fuel (cur + 1) (k + 1)
            (msgs1 ++ [⟨"user", some s⟩]) res1
        | some it0 =>
          let it := H.attachUsage k it0
          if feedbackStops H.feedback it then .ok (some (res1, msgs1))
          else
            let fr := H.handleFinal it res1
            if fr.1 then .ok (some (fr.2, msgs1))
            else if stepTypeIs it "action" then
              match H.handleAction it fr.2 msgs1 with
              | .error e => .error e
              | .ok (res3, msgs3) => runReactLoopAux H fuel cur (k + 1) msgs3 res3
            else
              match H.custom it fr.2 msgs1 with
              | some (res4, msgs4) =>
                runReactLoopAux H fuel (cur + 1) (k + 1) msgs4 res4
              | none =>
                let d := H.handleDefault it fr.2 msgs1
                runReactLoopAux H fuel (cur + 1) (k + 1) d.2 d.1

/-! ## Concrete instantiations used by witnesses and counterexamples -/

/-- A provider oracle that always answers the same raw step. -/
def w2Content : ℕ → Option String := fun _ => some "step"

/-- A `json.loads` oracle under which `"step"` parses to a final-answer
object and everything else fails to parse. -/
def w2Parse : String → Option Json :=
  fun s => if s = "step" then some (Json.obj [("final_answer", Json.str "42")]) else none

/-- A trivial `json.dumps` oracle (its output is never inspected). -/
def w2Dumps : Json → String := fun _ => ""

/-- A step that parses as a structured JSON object yet names a tool absent
from the registry. -/
def c2cStep : Json :=
  Json.obj [("action", Json.obj [("name", Json.str "absent_tool"),
                                 ("arguments", Json.obj [])])]

/-- A provider oracle that always answers the same raw action step. -/
def c2cContent : ℕ → Option String := fun _ => some "call absent tool"

/-- A `json.loads` oracle under which every step parses to the
absent-tool action object. -/
def c2cParse : String → Option Json := fun _ => some c2cStep

/-- A provider oracle that always answers free prose. -/
def w5Content : ℕ → Option String := fun _ => some "not json"

/-- A `json.loads` oracle under which nothing parses. -/
def w5Parse : String → Option Json := fun _ => none

/-- Concrete hooks for the agentic_loops base ReAct loop, with trivial
response record and handlers. -/
def w5Hooks : ReactHooks Unit Unit :=
  ⟨w5Content, w5Parse, fun r _ => r, fun _ j => j, none,
   fun _ r => (false, r), fun _ r m => .ok (r, m), fun _ _ _ => none,
   fun _ r m => (r, m), some 5⟩

/-- A concrete rate limiter on a counter state: a response of weight `r`
passes while `r` plus the counter stays below 5, and updating adds `r`. -/
def w4Ops : RateLimiterOps ℕ ℕ :=
  ⟨fun _ r n => decide (r + n < 5), fun _ r n => n + r⟩

/-- A concrete model answering weight 1. -/
def w4Ask : Json → ℕ := fun _ => 1

/-- A concrete user-identifier resolver. -/
def w4User : Option Json → String := fun _ => "u"

/-- A concrete request body with a truthy prompt. -/
def w4Data : Json := Json.obj [("prompt", Json.str "hi")]

/-! # Theorems -/

/-- C1 (counterexample): with the pricing table of the worked example,
`compute("openai", "gpt-4o-mini", 1000, 500)` returns
`input_cost = 0.15`, `output_cost = 0.3`, `total_cost = 0.45` — not the
`input_cost = 0.00015` the claim states (the claim's numbers are off by the
factor 1000 of its own formula). -/
theorem tokenCost_compute_example_refutes_claim :
    tokenCostCompute (some examplePricing) "openai" "gpt-4o-mini" 1000 500
      = .ok ⟨3/20, 3/10, 9/20⟩ ∧ (3/20 : ℚ) ≠ 3/20000 := by
  have h1 : pyRound (((1000 : ℤ) : ℚ) * (15/100) / 1000) 8 = 3/20 := by
    norm_num [pyRound, roundHalfEven, ratFloor]
  have h2 : pyRound (((500 : ℤ) : ℚ) * (6/10) / 1000) 8 = 3/10 := by
    norm_num [pyRound, roundHalfEven, ratFloor]
  have h3 : pyRound ((3 : ℚ)/20 + 3/10) 8 = 9/20 := by
    norm_num [pyRound, roundHalfEven, ratFloor]
  have e : tokenCostCompute (some examplePricing) "openai" "gpt-4o-mini" 1000 500
      = .ok ⟨pyRound (((1000 : ℤ) : ℚ) * (15/100) / 1000) 8,
             pyRound (((500 : ℤ) : ℚ) * (6/10) / 1000) 8,
             pyRound (pyRound (((1000 : ℤ) : ℚ) * (15/100) / 1000) 8
                      + pyRound (((500 : ℤ) : ℚ) * (6/10) / 1000) 8) 8⟩ := rfl
  refine ⟨?_, by norm_num⟩
  rw [e, h1, h2, h3]

/-- C1 (amended): `compute("openai", "gpt-4o-mini", 1000, 500)` on the
worked example's table follows the stated formulas
`round(tokens * price / 1000, 8)` exactly, yielding `input_cost = 0.15`,
`output_cost = 0.3`, `total_cost = 0.45`. -/
theorem tokenCost_compute_example_values :
    tokenCostCompute (some examplePricing) "openai" "gpt-4o-mini" 1000 500
      = .ok ⟨pyRound (((1000 : ℤ) : ℚ) * (15/100) / 1000) 8,
             pyRound (((500 : ℤ) : ℚ) * (6/10) / 1000) 8,
             pyRound (pyRound (((1000 : ℤ) : ℚ) * (15/100) / 1000) 8
                      + pyRound (((500 : ℤ) : ℚ) * (6/10) / 1000) 8) 8⟩
    ∧ tokenCostCompute (some examplePricing) "openai" "gpt-4o-mini" 1000 500
      = .ok ⟨3/20, 3/10, 9/20⟩ := by
  have h1 : pyRound (((1000 : ℤ) : ℚ) * (15/100) / 1000) 8 = 3/20 := by
    norm_num [pyRound, roundHalfEven, ratFloor]
  have h2 : pyRound (((500 : ℤ) : ℚ) * (6/10) / 1000) 8 = 3/10 := by
    norm_num [pyRound, roundHalfEven, ratFloor]
  have h3 : pyRound ((3 : ℚ)/20 + 3/10) 8 = 9/20 := by
    norm_num [pyRound, roundHalfEven, ratFloor]
  refine ⟨rfl, ?_⟩
  have e : tokenCostCompute (some examplePricing) "openai" "gpt-4o-mini" 1000 500
      = .ok ⟨pyRound (((1000 : ℤ) : ℚ) * (15/100) / 1000) 8,
             pyRound (((500 : ℤ) : ℚ) * (6/10) / 1000) 8,
             pyRound (pyRound (((1000 : ℤ) : ℚ) * (15/100) / 1000) 8
                      + pyRound (((500 : ℤ) : ℚ) * (6/10) / 1000) 8) 8⟩ := rfl
  rw [e, h1, h2, h3]

/-- C6 (counterexample): constructing a Prompt with BOTH `prompt_id` and
`prompt` supplied succeeds (no ConflictingArguments is raised; `prompt_id`
silently wins), and — with a prompt file whose text is empty — the
constructed Prompt's text is empty, refuting both the mutual-exclusivity
check and the non-empty-text guarantee. -/
theorem promptInit_both_sources_succeeds :
    promptInit (fun _ => ("", (none : Option Unit))) (fun s (_ : Unit) => s)
      (some "math_question") none (some "inline text") none
      = .ok ⟨"", none⟩ := rfl

/-- C6 (amended): construction fails (MissingPromptSource, a `ValueError`
in the source) exactly when neither `prompt_id` nor `prompt` is supplied;
when both are supplied, construction succeeds and behaves as if only
`prompt_id` had been given (the inline `prompt` is ignored), and the
resulting text is whatever the chosen source yields, possibly empty. -/
theorem promptInit_source_selection {τ δ : Type}
    (parse : String → String × Option τ) (fmt : String → δ → String)
    (pd : Option δ) (pid p : String) (rt : Option τ) :
    promptInit parse fmt none pd none rt = .error .missingPromptSource
    ∧ promptInit parse fmt (some pid) pd (some p) rt
        = promptInit parse fmt (some pid) pd none rt
    ∧ isOkE (promptInit parse fmt (some pid) pd (some p) rt) = true := by
  refine ⟨rfl, rfl, rfl⟩

/-- C10: when a Prompt is built from a `prompt_id`, the file's declared
response type wins whenever the file declares one, and the
constructor-supplied `response_type` is used only when the file declares
none; for an inline prompt the constructor-supplied type is used. -/
theorem promptInit_file_response_type_precedence {τ δ : Type}
    (parse : String → String × Option τ) (fmt : String → δ → String)
    (pid pinline : String) (pd : Option δ) (p : Option String) (rt : Option τ) :
    promptInit parse fmt (some pid) pd p rt
      = .ok ⟨(match pd with | some d => fmt (parse pid).1 d | none => (parse pid).1),
             (match (parse pid).2 with | some x => some x | none => rt)⟩
    ∧ promptInit parse fmt none pd (some pinline) rt
      = .ok ⟨(match pd with | some d => fmt pinline d | none => pinline), rt⟩ := by
  refine ⟨rfl, rfl⟩

/-- C8: an identifier already carrying the `.prompt` suffix does NOT
resolve to the same path as the bare identifier: `PromptParser.parse`
appends `.prompt` unconditionally before its (therefore dead) `endswith`
guard, so `"test.prompt"` resolves to `prompts/test.prompt.prompt` while
`"test"` resolves to `prompts/test.prompt`. -/
theorem promptFilePath_double_suffix :
    promptFilePath "prompts" "test.prompt" = "prompts/test.prompt.prompt"
    ∧ promptFilePath "prompts" "test" = "prompts/test.prompt"
    ∧ ("prompts/test.prompt.prompt" : String) ≠ "prompts/test.prompt" := by
  refine ⟨by rfl, by rfl, by decide⟩

/-- C9: constructing a Chat with both a `system_prompt` and a `chat_id`
fails with the conflicting-arguments error before any other effect (in
particular before key loading, whatever its outcome `lk`); constructing
with only a `chat_id` never invokes the history backend's `new` (the
equation holds for every `histNew` and returns the backend state `hs`
unchanged) and uses the supplied `chat_id`. -/
theorem chatInit_mutual_exclusivity {HS κ : Type}
    (histNew : Option String → HS → String × HS) (lk : Option κ)
    (sp cid : String) (hs : HS) :
    chatInit histNew lk (some sp) (some cid) hs = .error .conflictingArguments
    ∧ chatInit histNew (none : Option κ) none (some cid) hs = .ok (cid, hs) := by
  refine ⟨rfl, rfl⟩

/-- C7: with `OPENAI_API_KEY` already set in the environment, `load_key
("openai")` is NOT a no-op: its guard checks the un-upper-cased name
`"openai_API_KEY"`, misses, and the `_KeyManager` path reads the key file
and overwrites the environment entry with the file's value. -/
theorem load_key_env_guard_case_mismatch :
    load_key (some ["openai=filekey"]) false (fun _ => none) "openai" ⟨none⟩
        [("OPENAI_API_KEY", "envkey")]
      = .ok (⟨some [("OPENAI_API_KEY", "filekey")]⟩,
             [("OPENAI_API_KEY", "filekey")]) := by
  rfl

/-- C4: in both the `/model` and `/agent/{agent_name}` route handlers with
a rate limiter configured, `update_with_response` runs exactly when
`check_with_response` returned true on the same user and response: a passing
check commits the response's consumption, a failing check raises the
429 rate-limit error and leaves the limiter state `st` untouched. -/
theorem route_rate_limit_check_update {σ ρ : Type} (ops : RateLimiterOps σ ρ)
    (ask : Json → ρ) (agents : List (String × (Json → ρ)))
    (userOf : Option Json → String) (name : String) (run : Json → ρ)
    (d p : Json) (st : σ)
    (hp : d.getKey "prompt" = some p) (ht : pyTruthy p = true)
    (hag : lookupStr agents name = some run) :
    modelRoute (some ops) ask userOf (some d) st
      = (if ops.checkWithResponse (userOf (some d)) (ask p) st
         then (.ok (ask p), ops.updateWithResponse (userOf (some d)) (ask p) st)
         else (.error .rateLimited, st))
    ∧ agentRoute (some ops) agents userOf name (some d) st
      = (if ops.checkWithResponse (userOf (some d)) (run p) st
         then (.ok (run p), ops.updateWithResponse (userOf (some d)) (run p) st)
         else (.error .rateLimited, st)) := by
  constructor
  · simp [modelRoute, hp, ht]
  · simp [agentRoute, hag, hp, ht]

/-- C4 (witness): the route theorem applied to a concrete limiter, model,
agent table and request. -/
theorem route_rate_limit_check_update_witness :
    modelRoute (some w4Ops) w4Ask w4User (some w4Data) 0
      = (if w4Ops.checkWithResponse (w4User (some w4Data)) (w4Ask (Json.str "hi")) 0
         then (.ok (w4Ask (Json.str "hi")),
               w4Ops.updateWithResponse (w4User (some w4Data)) (w4Ask (Json.str "hi")) 0)
         else (.error .rateLimited, 0))
    ∧ agentRoute (some w4Ops) [("a", w4Ask)] w4User "a" (some w4Data) 0
      = (if w4Ops.checkWithResponse (w4User (some w4Data)) (w4Ask (Json.str "hi")) 0
         then (.ok (w4Ask (Json.str "hi")),
               w4Ops.updateWithResponse (w4User (some w4Data)) (w4Ask (Json.str "hi")) 0)
         else (.error .rateLimited, 0)) :=
  route_rate_limit_check_update w4Ops w4Ask [("a", w4Ask)] w4User "a" w4Ask
    w4Data (Json.str "hi") 0 rfl rfl rfl

/-! ### Chunking lemmas -/

theorem pyAdjIndex_le (n : ℕ) (i : ℤ) : pyAdjIndex n i ≤ n := by
  unfold pyAdjIndex
  split <;> omega

theorem pyAdjIndex_le_of_le (n : ℕ) (x : ℤ) (m : ℕ) (h0 : 0 ≤ x) (h : x ≤ (m : ℤ)) :
    pyAdjIndex n x ≤ m := by
  unfold pyAdjIndex
  split <;> omega

theorem pyAdjIndex_add_le (n : ℕ) (a : ℤ) (c : ℕ) :
    pyAdjIndex n (a + (c : ℤ)) ≤ pyAdjIndex n a + c := by
  unfold pyAdjIndex
  split <;> split <;> omega

theorem length_pySlice (t : List Char) (a b : ℤ) :
    (pySlice t a b).length = pyAdjIndex t.length b - pyAdjIndex t.length a := by
  unfold pySlice
  rw [List.length_drop, List.length_take]
  have h := pyAdjIndex_le t.length b
  omega

theorem length_pyStrip_le (t : List Char) : (pyStrip t).length ≤ t.length := by
  unfold pyStrip
  have h1 : ((t.dropWhile pyIsSpace).reverse.dropWhile pyIsSpace).length
      ≤ (t.dropWhile pyIsSpace).reverse.length :=
    (List.dropWhile_suffix pyIsSpace).sublist.length_le
  have h2 : (t.dropWhile pyIsSpace).length ≤ t.length :=
    (List.dropWhile_suffix pyIsSpace).sublist.length_le
  simp only [List.length_reverse] at h1 ⊢
  omega

theorem rfindAux_neg_or (t : List Char) (c : Char) (lo : ℕ) :
    ∀ hi : ℕ, rfindAux t c lo hi = -1
      ∨ (0 ≤ rfindAux t c lo hi ∧ rfindAux t c lo hi < (hi : ℤ)) := by
  intro hi
  induction hi with
  | zero => exact Or.inl rfl
  | succ h ih =>
    simp only [rfindAux]
    split
    · exact Or.inl rfl
    · split
      · exact Or.inr ⟨by omega, by omega⟩
      · rcases ih with h1 | ⟨h2, h3⟩
        · exact Or.inl h1
        · exact Or.inr ⟨h2, by omega⟩

theorem pyRfindChar_neg_or (t : List Char) (c : Char) (a b : ℤ) :
    pyRfindChar t c a b = -1
      ∨ (0 ≤ pyRfindChar t c a b
         ∧ pyRfindChar t c a b < (pyAdjIndex t.length b : ℤ)) := by
  unfold pyRfindChar
  exact rfindAux_neg_or t c _ _

theorem splitEnd_slice_le (t : List Char) (cs : ℕ) (start : ℤ) :
    (pyStrip (pySlice t start (splitEnd t cs start))).length ≤ cs := by
  refine le_trans (length_pyStrip_le _) ?_
  rw [length_pySlice]
  have hadd := pyAdjIndex_add_le t.length start cs
  have hs := pyRfindChar_neg_or t ' ' start (start + (cs : ℤ))
  have hn := pyRfindChar_neg_or t '\n' start (start + (cs : ℤ))
  have hb : pyAdjIndex t.length (splitEnd t cs start)
      ≤ pyAdjIndex t.length start + cs := by
    simp only [splitEnd]
    split
    · split
      · rcases hs with hs | ⟨hs0, hs1⟩ <;> rcases hn with hn | ⟨hn0, hn1⟩ <;>
          exact le_trans (pyAdjIndex_le_of_le _ _ _ (by omega) (by omega)) hadd
      · exact hadd
    · exact hadd
  omega

theorem splitTextLoop_mem (t : List Char) (cs ov : ℕ) :
    ∀ (fuel : ℕ) (start : ℤ) (c : List Char),
      c ∈ splitTextLoop t cs ov fuel start → c ≠ [] ∧ c.length ≤ cs := by
  intro fuel
  induction fuel with
  | zero => intro start c hc; simp [splitTextLoop] at hc
  | succ fuel ih =>
    intro start c hc
    simp only [splitTextLoop] at hc
    split at hc
    · split at hc
      · split at hc
        · simp at hc
        · exact ih _ _ hc
      · rcases List.mem_cons.mp hc with rfl | hc2
        · rename_i hemp
          refine ⟨?_, splitEnd_slice_le t cs start⟩
          intro hnil
          exact hemp (by rw [hnil]; rfl)
        · split at hc2
          · simp at hc2
          · exact ih _ _ hc2
    · simp at hc

/-- C3 (counterexample): on the empty input text, `_split_text` returns the
single-element list holding the empty string (the short-input path returns
`[text]` verbatim with no filtering), so not every returned chunk is
non-empty. -/
theorem splitText_empty_text_empty_chunk :
    (splitText 1000 100 1 []).any List.isEmpty = true := by decide

/-- C3 (amended): every chunk `_split_text` returns has length at most the
configured `chunk_size`; every chunk of a NON-EMPTY input text is non-empty;
and a text no longer than `chunk_size` (in particular one of exactly 1000
characters with `chunk_size` 1000) is returned verbatim as the
single-element list `[text]`, with no stripping and no splitting.  (The
empty input text is the sole exception to non-emptiness: it is returned
verbatim as an empty chunk.) -/
theorem splitText_chunks_bounded_nonempty (cs ov fuel : ℕ) (text : List Char) :
    (∀ c ∈ splitText cs ov fuel text, c.length ≤ cs)
    ∧ (text ≠ [] → ∀ c ∈ splitText cs ov fuel text, c ≠ [])
    ∧ (text.length ≤ cs → splitText cs ov fuel text = [text]) := by
  by_cases h : text.length ≤ cs
  · have e : splitText cs ov fuel text = [text] := by
      unfold splitText; rw [if_pos h]
    refine ⟨?_, ?_, fun _ => e⟩
    · intro c hc; rw [e] at hc; simp at hc; subst hc; exact h
    · intro hne c hc; rw [e] at hc; simp at hc; subst hc; exact hne
  · have e : splitText cs ov fuel text = splitTextLoop text cs ov fuel 0 := by
      unfold splitText; rw [if_neg h]
    refine ⟨?_, ?_, fun hlen => absurd hlen h⟩
    · intro c hc; rw [e] at hc; exact (splitTextLoop_mem text cs ov fuel 0 c hc).2
    · intro _ c hc; rw [e] at hc; exact (splitTextLoop_mem text cs ov fuel 0 c hc).1

/-- C3 (witness): a text of exactly 1000 characters with `chunk_size` 1000
is returned verbatim as a single chunk. -/
theorem splitText_chunks_bounded_nonempty_witness :
    splitText 1000 100 1 (List.replicate 1000 'a') = [List.replicate 1000 'a'] :=
  (splitText_chunks_bounded_nonempty 1000 100 1 (List.replicate 1000 'a')).2.2
    (le_of_eq (List.length_replicate 1000 'a'))

/-! ### Legacy ReAct loop lemmas -/

theorem stepFinal_isSome_iff (content : ℕ → Option String)
    (parse : String → Option Json) (i : ℕ) :
    (stepFinal content parse i).isSome = true
      ↔ ∃ j v, parsedStep content parse i = some j
          ∧ j.getKey "final_answer" = some v := by
  unfold stepFinal
  cases hps : parsedStep content parse i with
  | none => simp
  | some j => simp [Option.isSome_iff_exists]

theorem firstFinal_isSome_iff (content : ℕ → Option String)
    (parse : String → Option Json) :
    ∀ (fuel k : ℕ),
      (firstFinal content parse fuel k).isSome = true
        ↔ ∃ i, i < fuel ∧ (stepFinal content parse (k + i)).isSome = true := by
  intro fuel
  induction fuel with
  | zero => intro k; simp [firstFinal]
  | succ fuel ih =>
    intro k
    simp only [firstFinal]
    cases hsf : stepFinal content parse k with
    | some v =>
      simp only [Option.isSome_some, true_iff]
      exact ⟨0, by omega, by rw [Nat.add_zero, hsf]; rfl⟩
    | none =>
      rw [ih (k + 1)]
      constructor
      · rintro ⟨i, hi, hstep⟩
        refine ⟨i + 1, by omega, ?_⟩
        rw [show k + (i + 1) = k + 1 + i by omega]
        exact hstep
      · rintro ⟨i, hi, hstep⟩
        cases i with
        | zero =>
          rw [Nat.add_zero, hsf] at hstep
          simp at hstep
        | succ i =>
          refine ⟨i, by omega, ?_⟩
          rw [show k + 1 + i = k + (i + 1) by omega]
          exact hstep

theorem reactLoopAux_ok (content : ℕ → Option String)
    (parse : String → Option Json) (dumps : Json → String)
    (tools : List (String × (List Json → Json))) :
    ∀ (fuel k : ℕ) (msgs : List Msg) (res : ReactResult),
      (∀ i, i < fuel → (parsedStep content parse (k + i)).isSome = true) →
      (∀ i, i < fuel → ∀ j tc, parsedStep content parse (k + i) = some j →
          j.getKey "final_answer" = none → j.getKey "action" = some tc →
          isOkE (callToolR tools tc) = true) →
      ∃ r m, reactLoopAux content parse dumps tools fuel k msgs res = .ok (r, m)
        ∧ r.prompt = res.prompt
        ∧ r.response = (match firstFinal content parse fuel k with
                        | some v => some v
                        | none => res.response) := by
  intro fuel
  induction fuel with
  | zero =>
    intro k msgs res hp hw
    exact ⟨res, msgs, rfl, rfl, by simp [firstFinal]⟩
  | succ fuel ih =>
    intro k msgs res hp hw
    have h0 := hp 0 (by omega)
    rw [Nat.add_zero] at h0
    obtain ⟨j, hj⟩ := Option.isSome_iff_exists.mp h0
    cases hc : content k with
    | none =>
      unfold parsedStep at hj
      rw [hc] at hj
      simp at hj
    | some s =>
      have hj' : parse s = some j := by
        unfold parsedStep at hj
        rw [hc] at hj
        exact hj
      have hps : parsedStep content parse k = some j := by
        unfold parsedStep
        rw [hc]
        exact hj'
      have hshift : ∀ i, i < fuel → (parsedStep content parse (k + 1 + i)).isSome = true := by
        intro i hi
        rw [show k + 1 + i = k + (i + 1) by omega]
        exact hp (i + 1) (by omega)
      have hwshift : ∀ i, i < fuel → ∀ j' tc,
          parsedStep content parse (k + 1 + i) = some j' →
          j'.getKey "final_answer" = none → j'.getKey "action" = some tc →
          isOkE (callToolR tools tc) = true := by
        intro i hi j' tc h1 h2 h3
        refine hw (i + 1) (by omega) j' tc ?_ h2 h3
        rw [show k + (i + 1) = k + 1 + i by omega]
        exact h1
      cases hk : j.getKey "final_answer" with
      | some v =>
        refine ⟨⟨res.prompt, res.iterations ++ [j], some v⟩,
          msgs ++ [⟨"assistant", some s⟩], ?_, rfl, ?_⟩
        · simp only [reactLoopAux, hc, hj', hk]
        · have : firstFinal content parse (fuel + 1) k = some v := by
            simp only [firstFinal, stepFinal, hps, hk]
          rw [this]
      | none =>
        have hffstep : firstFinal content parse (fuel + 1) k
            = firstFinal content parse fuel (k + 1) := by
          simp only [firstFinal, stepFinal, hps, hk]
        cases ha : j.getKey "action" with
        | some tc =>
          have hok := hw 0 (by omega) j tc (by rw [Nat.add_zero]; exact hps) hk ha
          cases hct : callToolR tools tc with
          | error e =>
            rw [hct] at hok
            simp [isOkE] at hok
          | ok tr =>
            obtain ⟨r, m, hr, hrp, hrr⟩ := ih (k + 1)
              (msgs ++ [⟨"assistant", some s⟩]
                ++ [⟨"user", some (dumps (Json.obj [("observation", tr)]))⟩])
              ⟨res.prompt, res.iterations ++ [j.setKey "observation" tr], res.response⟩
              hshift hwshift
            refine ⟨r, m, ?_, hrp, ?_⟩
            · simp only [reactLoopAux, hc, hj', hk, ha, hct]
              exact hr
            · rw [hrr, hffstep]
        | none =>
          obtain ⟨r, m, hr, hrp, hrr⟩ := ih (k + 1)
            (msgs ++ [⟨"assistant", some s⟩]) res hshift hwshift
          refine ⟨r, m, ?_, hrp, ?_⟩
          · simp only [reactLoopAux, hc, hj', hk, ha]
            exact hr
          · rw [hrr, hffstep]

/-- C2 (counterexample): a model-step function whose every step content
parses as structured JSON does NOT guarantee an error-free run — a step
that parses to the JSON object
`{"action": {"name": "absent_tool", "arguments": {}}}` makes
`ReactAgenticLoop.start` (run with an empty tool registry and
`max_iter = 3`) propagate the `KeyError` from
`self._available_tools[tool_call["name"]]` instead of returning normally. -/
theorem react_loop_missing_tool_raises :
    parsedStep c2cContent c2cParse 0 = some c2cStep
    ∧ c2cStep.isObj = true
    ∧ reactStart c2cContent c2cParse w2Dumps [] [] "q" 3 = .error .keyError :=
  ⟨rfl, rfl, rfl⟩

/-- C2 (amended): for every query, tool registry and provider whose every
step within the iteration budget parses as a structured JSON object AND
whose non-final action steps name registered tools with object-valued
arguments (otherwise the tool lookup in `_call_tool` raises `KeyError`),
`ReactAgenticLoop.start` with a finite `max_iter` terminates normally
(returns, raises no error); its result carries a final answer exactly when
some step within the first `max_iter` iterations contains a
`"final_answer"` key, in which case the returned response is the first
such step's `final_answer` value; and a run exhausting `max_iter` without
such a step returns normally with no final answer in the result. -/
theorem react_loop_terminates_iff_final_answer
    (content : ℕ → Option String) (parse : String → Option Json)
    (dumps : Json → String) (tools : List (String × (List Json → Json)))
    (msgs0 : List Msg) (query : String) (maxIter : ℕ)
    (hp : ∀ i, i < maxIter → ∃ j, parsedStep content parse i = some j
        ∧ j.isObj = true)
    (hw : ∀ i, i < maxIter → ∀ j tc, parsedStep content parse i = some j →
        j.getKey "final_answer" = none → j.getKey "action" = some tc →
        isOkE (callToolR tools tc) = true) :
    ∃ r m, reactStart content parse dumps tools msgs0 query maxIter = .ok (r, m)
      ∧ r.prompt = query
      ∧ r.response = firstFinal content parse maxIter 0
      ∧ ((∃ v, r.response = some v)
          ↔ ∃ i, i < maxIter ∧ ∃ j v, parsedStep content parse i = some j
              ∧ j.getKey "final_answer" = some v) := by
  obtain ⟨r, m, hr, hrp, hrr⟩ := reactLoopAux_ok content parse dumps tools maxIter 0
    msgs0 ⟨query, [], none⟩
    (by
      intro i hi
      rw [Nat.zero_add]
      obtain ⟨j, hj, _⟩ := hp i hi
      rw [hj]
      rfl)
    (by
      intro i hi j tc h1 h2 h3
      refine hw i hi j tc ?_ h2 h3
      rw [Nat.zero_add] at h1
      exact h1)
  have hmatch : (match firstFinal content parse maxIter 0 with
      | some v => some v
      | none => (none : Option Json)) = firstFinal content parse maxIter 0 := by
    cases firstFinal content parse maxIter 0 <;> rfl
  rw [hmatch] at hrr
  refine ⟨r, m, hr, hrp, hrr, ?_⟩
  rw [hrr]
  rw [← Option.isSome_iff_exists]
  rw [firstFinal_isSome_iff content parse maxIter 0]
  constructor
  · rintro ⟨i, hi, hstep⟩
    rw [Nat.zero_add] at hstep
    exact ⟨i, hi, (stepFinal_isSome_iff content parse i).mp hstep⟩
  · rintro ⟨i, hi, hfin⟩
    refine ⟨i, hi, ?_⟩
    rw [Nat.zero_add]
    exact (stepFinal_isSome_iff content parse i).mpr hfin

/-- C2 (witness): a provider that immediately answers a final-answer step
terminates after one iteration with that answer. -/
theorem react_loop_terminates_iff_final_answer_witness :
    ∃ r m, reactStart w2Content w2Parse w2Dumps [] [] "q" 1 = .ok (r, m)
      ∧ r.prompt = "q"
      ∧ r.response = firstFinal w2Content w2Parse 1 0
      ∧ ((∃ v, r.response = some v)
          ↔ ∃ i, i < 1 ∧ ∃ j v, parsedStep w2Content w2Parse i = some j
              ∧ j.getKey "final_answer" = some v) :=
  react_loop_terminates_iff_final_answer w2Content w2Parse w2Dumps [] [] "q" 1
    (by
      intro i hi
      exact ⟨Json.obj [("final_answer", Json.str "42")], rfl, rfl⟩)
    (by
      intro i hi j tc h1 h2 h3
      cases h1
      simp [Json.getKey, lookupStr] at h2)

/-- C5 (counterexample): not every agentic loop recovers from unparseable
step content — the legacy `ReactAgenticLoop.start` in
monoai/agents/agentic_loop.py calls `json.loads(content)` with no handler,
so a provider whose first step is free prose makes the run raise the JSON
decode error instead of re-injecting the content. -/
theorem react_legacy_loop_raises_on_unparseable :
    reactStart w5Content w5Parse w2Dumps [] [] "q" 3
      = .error (.jsonDecode "not json") := rfl

/-- C5 (amended): in `_BaseReactLoop._run_react_loop` (the agentic_loops
package), an iteration whose step content fails to parse as structured JSON
raises nothing: the raw content is re-injected as an ordinary user message
and the loop continues with the next iteration (same response record but
for usage accounting, iteration counter advanced by one). -/
theorem react_base_loop_reinjects_unparseable {ρ ε : Type} (H : ReactHooks ρ ε)
    (fuel cur k : ℕ) (msgs : List Msg) (res : ρ) (s : String)
    (hc : H.content k = some s) (hps : H.parseStep s = none)
    (hcap : capReached H.maxIter cur = false) :
    runReactLoopAux H (fuel + 1) cur k msgs res
      = runReactLoopAux H fuel (cur + 1) (k + 1)
          (msgs ++ [⟨"assistant", some s⟩, ⟨"user", some s⟩])
          (H.updateUsage res (some s)) := by
  simp only [runReactLoopAux, hcap, hc, hps, Bool.false_eq_true, if_false,
    List.append_assoc, List.cons_append, List.nil_append]

/-- C5 (witness): the unparseable-step equation at concrete hooks whose
provider answers free prose. -/
theorem react_base_loop_reinjects_unparseable_witness :
    runReactLoopAux w5Hooks 1 0 0 [] ()
      = runReactLoopAux w5Hooks 0 1 1
          ([] ++ [⟨"assistant", some "not json"⟩, ⟨"user", some "not json"⟩])
          (w5Hooks.updateUsage () (some "not json")) :=
  react_base_loop_reinjects_unparseable w5Hooks 0 0 0 [] () "not json" rfl rfl rfl

end MonoAI
